import Mathlib

/-!
Shallow embedding of `pkg/serviceaccounts/controllers/deleted_dockercfg_secrets.go`
(the `DockercfgDeletedController`).

The controller's store interactions (Get/Update on ServiceAccounts, Delete on
Secrets) are modelled by an environment of per-attempt responses, and every
store call, sleep and error report the controller makes is recorded as an
`Act`, so theorems can speak about which calls were issued and in which
order.  Go machine state that the claims are about (annotation maps, reference
lists) is embedded directly; durations are rationals counting nanoseconds.
-/

/-- Go constant `api.ServiceAccountNameKey` (from the vendored kubernetes api
package): annotation key holding the name of the ServiceAccount that owns a
dockercfg secret. -/
def ServiceAccountNameKey : String := "kubernetes.io/service-account.name"

/-- Go constant `api.ServiceAccountUIDKey` (from the vendored kubernetes api
package): annotation key holding the UID of the ServiceAccount that owns a
dockercfg secret. -/
def ServiceAccountUIDKey : String := "kubernetes.io/service-account.uid"

/-- Go constant `ServiceAccountTokenSecretNameKey`, declared in another file of
the same `controllers` package: annotation key holding the name of the token
secret backing the dockercfg secret.  Only its identity matters here. -/
def ServiceAccountTokenSecretNameKey : String := "openshift.io/token-secret.name"

/-- Go constant `NumServiceAccountUpdateRetries` (line 23): number of times the
controller retries on conflict errors. -/
def NumServiceAccountUpdateRetries : Nat := 10

/-- Type `api.ObjectReference` restricted to the fields this controller reads or
writes: entries of `ServiceAccount.Secrets`.  The `uid` field stands for the
payload the controller never inspects, so theorems can distinguish two entries
with the same name. -/
structure ObjectReference where
  name : String
  uid : String := ""
  deriving DecidableEq

/-- Type `api.LocalObjectReference`: entries of `ServiceAccount.ImagePullSecrets`
(a name only, as in the kubernetes api). -/
structure LocalObjectReference where
  name : String
  deriving DecidableEq

/-- Type `api.ServiceAccount` restricted to the fields this controller uses.
`ns` is the Go `Namespace` field. -/
structure ServiceAccount where
  name : String
  ns : String
  uid : String
  secrets : List ObjectReference
  imagePullSecrets : List LocalObjectReference
  deriving DecidableEq

/-- Type `api.Secret` restricted to the fields this controller uses: name,
namespace and the annotation map (an association list with unique keys). -/
structure Secret where
  name : String
  ns : String
  anns : List (String × String)
  deriving DecidableEq

/-- Go map indexing `secret.Annotations[k]`: the value stored at `k`, or the
zero value `""` when the key is absent (or the map is nil). -/
def annGet (s : Secret) (k : String) : String :=
  (s.anns.lookup k).getD ""

/-- Go two-valued map indexing `_, exists := secret.Annotations[k]`. -/
def annHas (s : Secret) (k : String) : Bool :=
  (s.anns.lookup k).isSome

/-- Error classes of the store client, as distinguished by
`kapierrors.IsNotFound` / `kapierrors.IsConflict`. -/
inductive StoreErr
  | notFound
  | conflict
  | otherErr
  deriving DecidableEq

/-- Response of the store to `ServiceAccounts(ns).Get(name)`. -/
inductive GetSAResult
  | found (sa : ServiceAccount)
  | err (e : StoreErr)
  deriving DecidableEq

/-- Response of the store to `ServiceAccounts(ns).Update(sa)`. -/
inductive UpdateResult
  | ok
  | err (e : StoreErr)
  deriving DecidableEq

/-- Response of the store to `Secrets(ns).Delete(name, nil)`. -/
inductive DeleteResult
  | ok
  | err (e : StoreErr)
  deriving DecidableEq

/-- The error values `removeDockercfgSecretReference` can return: a store
error propagated from the Get call, the `fmt.Errorf` built by
`getServiceAccount` on a UID mismatch (line 175), or a store error propagated
from the Update call. -/
inductive RemoveErr
  | fromGet (e : StoreErr)
  | uidMismatch
  | fromUpdate (e : StoreErr)
  deriving DecidableEq

/-- Predicate `kapierrors.IsConflict` applied to a `RemoveErr`: true exactly for store
conflict errors (the mismatch error is a plain `fmt.Errorf`). -/
def RemoveErr.isConflict : RemoveErr → Bool
  | .fromGet .conflict => true
  | .fromUpdate .conflict => true
  | _ => false

/-- Observable steps taken by the controller while handling one deletion
event.  `getSA`, `updateSA` and `sleep` are tagged with the retry-loop
attempt number (Go's `i`, counting from 1) in which they occur;
`logError` is the `glog.Error` call at line 104 and `handleError` the
`utilruntime.HandleError` call at line 113. -/
inductive Act
  | getSA (attempt : Nat) (ns name : String)
  | updateSA (attempt : Nat) (sa : ServiceAccount)
  | sleep (attempt : Nat) (d : ℚ)
  | deleteSecret (ns name : String)
  | logError
  | handleError
  deriving DecidableEq

/-- Outcome of `getServiceAccount` (which returns a `(*ServiceAccount, error)`
pair in Go: the reachable combinations are `(nil, nil)`, `(nil, err)` and
`(sa, nil)`). -/
inductive SAOutcome
  | noRef
  | err (e : RemoveErr)
  | ok (sa : ServiceAccount)
  deriving DecidableEq

/-- Function `getServiceAccount` (lines 163-178), given the store's response to the
Get call it may issue.  Returns the outcome and the store calls made.
Mirrors: read `saName`/`saUID` from the annotations; if either is empty return
`(nil, nil)`; Get the ServiceAccount, propagating any error; return the
mismatch error unless `saUID == serviceAccount.UID`. -/
def getServiceAccount (i : Nat) (getResp : GetSAResult) (secret : Secret) :
    SAOutcome × List Act :=
  let saName := annGet secret ServiceAccountNameKey
  let saUID := annGet secret ServiceAccountUIDKey
  if saName.length = 0 ∨ saUID.length = 0 then
    (.noRef, [])
  else
    match getResp with
    | .err e => (.err (.fromGet e), [.getSA i secret.ns saName])
    | .found sa =>
      if saUID ≠ sa.uid then
        (.err .uidMismatch, [.getSA i secret.ns saName])
      else
        (.ok sa, [.getSA i secret.ns saName])

/-- The reference-stripping loops of `removeDockercfgSecretReference`
(lines 130-150): rebuild the list keeping entries whose name differs from
`target`, recording in the second component whether any entry was dropped
(Go's `changed` flag contribution of this loop). -/
def removeNamed {α : Type} (nameOf : α → String) (target : String) :
    List α → List α × Bool
  | [] => ([], false)
  | s :: rest =>
    let r := removeNamed nameOf target rest
    if nameOf s = target then (r.1, true) else (s :: r.1, r.2)

/-- The ServiceAccount as `removeDockercfgSecretReference` rewrites it before
a possible Update: both reference lists with every entry named `target`
removed. -/
def stripSA (sa : ServiceAccount) (target : String) : ServiceAccount :=
  { sa with
    secrets := (removeNamed ObjectReference.name target sa.secrets).1
    imagePullSecrets :=
      (removeNamed LocalObjectReference.name target sa.imagePullSecrets).1 }

/-- Store responses available to one call of
`removeDockercfgSecretReference`: the Get response and the Update response. -/
structure AttemptEnv where
  getResp : GetSAResult
  updResp : UpdateResult

/-- Outcome of one call of `removeDockercfgSecretReference`: a Go panic, an
error return, or a nil return. -/
inductive RemoveResult
  | panicked
  | failed (e : RemoveErr)
  | succeeded
  deriving DecidableEq

/-- Function `removeDockercfgSecretReference` (lines 118-160), attempt number `i`.
Mirrors: call `getServiceAccount`; `kapierrors.IsNotFound(err)` → return nil;
`err != nil` → return err.  When `getServiceAccount` returned `(nil, nil)`
(both guards pass with a nil ServiceAccount), the loop at line 131 dereferences
the nil pointer (`serviceAccount.Secrets`) and panics.  Otherwise strip the
secret's name from both reference lists and, if anything changed, issue the
Update, propagating its error. -/
def removeDockercfgSecretReference (i : Nat) (aenv : AttemptEnv)
    (dockercfgSecret : Secret) : RemoveResult × List Act :=
  match getServiceAccount i aenv.getResp dockercfgSecret with
  | (.err (.fromGet .notFound), tr) => (.succeeded, tr)
  | (.err e, tr) => (.failed e, tr)
  | (.noRef, tr) => (.panicked, tr)
  | (.ok sa, tr) =>
    let rs := removeNamed ObjectReference.name dockercfgSecret.name sa.secrets
    let rp := removeNamed LocalObjectReference.name dockercfgSecret.name
      sa.imagePullSecrets
    let changed := rs.2 || rp.2
    let sa' : ServiceAccount := { sa with secrets := rs.1, imagePullSecrets := rp.1 }
    if changed then
      match aenv.updResp with
      | .ok => (.succeeded, tr ++ [.updateSA i sa'])
      | .err e => (.failed (.fromUpdate e), tr ++ [.updateSA i sa'])
    else
      (.succeeded, tr)

/-- Model of the library function `Jitter` from
`k8s.io/apimachinery/pkg/util/wait` (the dependency called at line 100):
if `maxFactor <= 0.0` it is replaced by `1.0`, and the result is
`duration + rand*maxFactor*duration`, where `rand` stands for the value of
`rand.Float64()`, a number in `[0, 1)`.  Durations count nanoseconds. -/
def waitJitter (duration maxFactor rand : ℚ) : ℚ :=
  let mf := if maxFactor ≤ 0 then 1 else maxFactor
  duration + rand * mf * duration

/-- Store responses for the handling of one deletion event: per-attempt Get and
Update responses, the response to the final token-secret Delete, and the
per-attempt value drawn from the random source for the jittered sleep. -/
structure Env where
  getResp : Nat → GetSAResult
  updResp : Nat → UpdateResult
  delResp : DeleteResult
  rand : Nat → ℚ

/-- The retry loop of `secretDeleted` (lines 97-109), starting at attempt `i`
with `fuel` loop iterations available.  The Boolean is true when the body
panicked (aborting `secretDeleted`).  Mirrors: run
`removeDockercfgSecretReference`; on success break; on error, if
`kapierrors.IsConflict(err) && i < NumServiceAccountUpdateRetries` sleep
`wait.Jitter(100*time.Millisecond, 0.0)` and continue, else `glog.Error(err)`
and break.  The fuel-0 case is unreachable when called with
`i = 1, fuel = NumServiceAccountUpdateRetries`, because `continue` requires
`i < NumServiceAccountUpdateRetries`. -/
def secretDeletedLoop (env : Env) (dockercfgSecret : Secret) :
    Nat → Nat → Bool × List Act
  | _, 0 => (false, [])
  | i, fuel + 1 =>
    match removeDockercfgSecretReference i ⟨env.getResp i, env.updResp i⟩
        dockercfgSecret with
    | (.panicked, tr) => (true, tr)
    | (.succeeded, tr) => (false, tr)
    | (.failed e, tr) =>
      if e.isConflict ∧ i < NumServiceAccountUpdateRetries then
        let rest := secretDeletedLoop env dockercfgSecret (i + 1) fuel
        (rest.1,
          tr ++ [.sleep i (waitJitter (100 * 1000000) 0 (env.rand i))] ++ rest.2)
      else
        (false, tr ++ [.logError])

/-- The object delivered to the delete handler: either a `*api.Secret`, or
some other payload (for which the type assertion at line 89 fails). -/
inductive EventObj
  | secret (s : Secret)
  | nonSecret
  deriving DecidableEq

/-- The cascade-delete step (lines 111-114): delete the token secret named by
the `ServiceAccountTokenSecretNameKey` annotation; the resulting error is
handed to `utilruntime.HandleError` unless it is nil or a not-found error. -/
def delTrace (env : Env) (dockercfgSecret : Secret) : List Act :=
  let tokName := annGet dockercfgSecret ServiceAccountTokenSecretNameKey
  match env.delResp with
  | .ok => [Act.deleteSecret dockercfgSecret.ns tokName]
  | .err .notFound => [Act.deleteSecret dockercfgSecret.ns tokName]
  | .err _ => [Act.deleteSecret dockercfgSecret.ns tokName, Act.handleError]

/-- Function `secretDeleted` (lines 88-115).  Mirrors: return unless the object is a
Secret carrying the `ServiceAccountTokenSecretNameKey` annotation; run the
retry loop; then perform the cascade delete of the token secret.  The Boolean
is true when the handler panicked (in which case nothing after the panic point
runs, in particular no cascade delete). -/
def secretDeleted (env : Env) (obj : EventObj) : Bool × List Act :=
  match obj with
  | .nonSecret => (false, [])
  | .secret dockercfgSecret =>
    if !annHas dockercfgSecret ServiceAccountTokenSecretNameKey then
      (false, [])
    else
      match secretDeletedLoop env dockercfgSecret 1
          NumServiceAccountUpdateRetries with
      | (true, tr) => (true, tr)
      | (false, tr) => (false, tr ++ delTrace env dockercfgSecret)

/-- A fault-free store state: the live ServiceAccounts and the set of
existing token secrets, identified by (namespace, name). -/
structure World where
  sas : List ServiceAccount
  tokens : List (String × String)
  deriving DecidableEq

/-- What the fault-free store answers to `ServiceAccounts(ns).Get(name)`. -/
def worldGetSA (w : World) (ns name : String) : GetSAResult :=
  match w.sas.find? (fun sa => sa.ns == ns && sa.name == name) with
  | some sa => .found sa
  | none => .err .notFound

/-- The environment a single handler run observes over a fault-free store
with no concurrent writers: every Get answers from `w`, every Update
succeeds, the token Delete succeeds exactly when the token exists, and the
random source is irrelevant. -/
def envOfWorld (w : World) (s : Secret) : Env where
  getResp := fun _ => worldGetSA w s.ns (annGet s ServiceAccountNameKey)
  updResp := fun _ => .ok
  delResp :=
    if (s.ns, annGet s ServiceAccountTokenSecretNameKey) ∈ w.tokens then .ok
    else .err .notFound
  rand := fun _ => 0

/-- Effect of one recorded store call on the fault-free store. -/
def applyAct (w : World) : Act → World
  | .updateSA _ sa =>
    { w with
      sas := w.sas.map (fun x => if x.ns = sa.ns ∧ x.name = sa.name then sa else x) }
  | .deleteSecret ns name =>
    { w with tokens := w.tokens.filter (fun t => t ≠ (ns, name)) }
  | _ => w

/-- Handling of one deletion event for `s` over the fault-free store `w`:
`none` when the handler panicked, otherwise the store after all recorded
calls together with the number of errors reported (logged or handed to the
error handler) during the run. -/
def processEvent (s : Secret) (w : World) : Option (World × Nat) :=
  let r := secretDeleted (envOfWorld w s) (.secret s)
  if r.1 then none
  else some (r.2.foldl applyAct w,
    r.2.countP (fun a => decide (a = Act.logError ∨ a = Act.handleError)))

/-! ### Basic characterizations -/

/-- The stripping loop keeps, in order, exactly the entries whose name differs
from `target`, and reports whether any entry was dropped. -/
theorem removeNamed_eq {α : Type} (nameOf : α → String) (t : String)
    (l : List α) :
    removeNamed nameOf t l =
      (l.filter (fun s => nameOf s != t), l.any (fun s => nameOf s == t)) := by
  induction l with
  | nil => rfl
  | cons s rest ih =>
    by_cases h : nameOf s = t <;>
      simp [removeNamed, ih, h, List.filter_cons, List.any_cons]

theorem stripSA_secrets (sa : ServiceAccount) (t : String) :
    (stripSA sa t).secrets = sa.secrets.filter (fun r => r.name != t) := by
  simp [stripSA, removeNamed_eq]

theorem stripSA_pull (sa : ServiceAccount) (t : String) :
    (stripSA sa t).imagePullSecrets =
      sa.imagePullSecrets.filter (fun r => r.name != t) := by
  simp [stripSA, removeNamed_eq]

/-! ### Per-attempt equations for removeDockercfgSecretReference -/

/-- Empty or absent back-reference annotations: `getServiceAccount` returns
`(nil, nil)` and the caller dereferences the nil ServiceAccount. -/
theorem remove_noRef (i : Nat) (aenv : AttemptEnv) (s : Secret)
    (h : (annGet s ServiceAccountNameKey).length = 0 ∨
      (annGet s ServiceAccountUIDKey).length = 0) :
    removeDockercfgSecretReference i aenv s = (.panicked, []) := by
  rcases h with h | h <;>
    simp [removeDockercfgSecretReference, getServiceAccount, h]

/-- The Get call fails: a not-found error is swallowed, any other error is
returned. -/
theorem remove_getErr (i : Nat) (aenv : AttemptEnv) (s : Secret) (e : StoreErr)
    (hname : (annGet s ServiceAccountNameKey).length ≠ 0)
    (huid : (annGet s ServiceAccountUIDKey).length ≠ 0)
    (hget : aenv.getResp = .err e) :
    removeDockercfgSecretReference i aenv s =
      (if e = .notFound then .succeeded else .failed (.fromGet e),
        [.getSA i s.ns (annGet s ServiceAccountNameKey)]) := by
  cases e <;>
    simp [removeDockercfgSecretReference, getServiceAccount, hname, huid, hget]

/-- The fetched ServiceAccount's UID differs from the annotation: the
mismatch error is returned without any Update. -/
theorem remove_mismatch (i : Nat) (aenv : AttemptEnv) (s : Secret)
    (sa : ServiceAccount)
    (hname : (annGet s ServiceAccountNameKey).length ≠ 0)
    (huid : (annGet s ServiceAccountUIDKey).length ≠ 0)
    (hget : aenv.getResp = .found sa)
    (hmm : annGet s ServiceAccountUIDKey ≠ sa.uid) :
    removeDockercfgSecretReference i aenv s =
      (.failed .uidMismatch, [.getSA i s.ns (annGet s ServiceAccountNameKey)]) := by
  simp [removeDockercfgSecretReference, getServiceAccount, hname, huid, hget, hmm]

/-- Matching UID and at least one reference to strip: the Update is issued
with the stripped ServiceAccount, and its response decides the outcome. -/
theorem remove_match_changed (i : Nat) (aenv : AttemptEnv) (s : Secret)
    (sa : ServiceAccount)
    (hname : (annGet s ServiceAccountNameKey).length ≠ 0)
    (huid : (annGet s ServiceAccountUIDKey).length ≠ 0)
    (hget : aenv.getResp = .found sa)
    (hmt : annGet s ServiceAccountUIDKey = sa.uid)
    (hch : (∃ r ∈ sa.secrets, r.name = s.name) ∨
      ∃ r ∈ sa.imagePullSecrets, r.name = s.name) :
    removeDockercfgSecretReference i aenv s =
      ((match aenv.updResp with
        | .ok => RemoveResult.succeeded
        | .err e => .failed (.fromUpdate e)),
       [.getSA i s.ns (annGet s ServiceAccountNameKey),
        .updateSA i (stripSA sa s.name)]) := by
  have huid' : sa.uid.length ≠ 0 := hmt ▸ huid
  cases hupd : aenv.updResp <;>
    simp [removeDockercfgSecretReference, getServiceAccount, hname, huid, huid',
      hget, hmt, hupd, removeNamed_eq, hch, stripSA]

/-- Matching UID but nothing referencing the deleted secret: no Update. -/
theorem remove_match_unchanged (i : Nat) (aenv : AttemptEnv) (s : Secret)
    (sa : ServiceAccount)
    (hname : (annGet s ServiceAccountNameKey).length ≠ 0)
    (huid : (annGet s ServiceAccountUIDKey).length ≠ 0)
    (hget : aenv.getResp = .found sa)
    (hmt : annGet s ServiceAccountUIDKey = sa.uid)
    (hch : ¬((∃ r ∈ sa.secrets, r.name = s.name) ∨
      ∃ r ∈ sa.imagePullSecrets, r.name = s.name)) :
    removeDockercfgSecretReference i aenv s =
      (.succeeded, [.getSA i s.ns (annGet s ServiceAccountNameKey)]) := by
  have huid' : sa.uid.length ≠ 0 := hmt ▸ huid
  simp [removeDockercfgSecretReference, getServiceAccount, hname, huid, huid',
    hget, hmt, removeNamed_eq, hch]

/-! ### Loop and handler equations -/

theorem loop_panic (env : Env) (s : Secret) (i fuel : Nat) (tr : List Act)
    (h : removeDockercfgSecretReference i ⟨env.getResp i, env.updResp i⟩ s =
      (.panicked, tr)) :
    secretDeletedLoop env s i (fuel + 1) = (true, tr) := by
  simp [secretDeletedLoop, h]

theorem loop_success (env : Env) (s : Secret) (i fuel : Nat) (tr : List Act)
    (h : removeDockercfgSecretReference i ⟨env.getResp i, env.updResp i⟩ s =
      (.succeeded, tr)) :
    secretDeletedLoop env s i (fuel + 1) = (false, tr) := by
  simp [secretDeletedLoop, h]

theorem loop_fail_noconflict (env : Env) (s : Secret) (i fuel : Nat)
    (e : RemoveErr) (tr : List Act)
    (h : removeDockercfgSecretReference i ⟨env.getResp i, env.updResp i⟩ s =
      (.failed e, tr))
    (hc : e.isConflict = false) :
    secretDeletedLoop env s i (fuel + 1) = (false, tr ++ [.logError]) := by
  simp [secretDeletedLoop, h, hc]

theorem loop_fail_last (env : Env) (s : Secret) (i fuel : Nat)
    (e : RemoveErr) (tr : List Act)
    (h : removeDockercfgSecretReference i ⟨env.getResp i, env.updResp i⟩ s =
      (.failed e, tr))
    (hi : ¬ i < NumServiceAccountUpdateRetries) :
    secretDeletedLoop env s i (fuel + 1) = (false, tr ++ [.logError]) := by
  simp [secretDeletedLoop, h, hi]

theorem loop_fail_retry (env : Env) (s : Secret) (i fuel : Nat)
    (e : RemoveErr) (tr : List Act)
    (h : removeDockercfgSecretReference i ⟨env.getResp i, env.updResp i⟩ s =
      (.failed e, tr))
    (hc : e.isConflict = true) (hi : i < NumServiceAccountUpdateRetries) :
    secretDeletedLoop env s i (fuel + 1) =
      ((secretDeletedLoop env s (i + 1) fuel).1,
       tr ++ [.sleep i (waitJitter (100 * 1000000) 0 (env.rand i))] ++
         (secretDeletedLoop env s (i + 1) fuel).2) := by
  simp [secretDeletedLoop, h, hc, hi]

theorem secretDeleted_of_loop (env : Env) (s : Secret) (tr : List Act)
    (htok : annHas s ServiceAccountTokenSecretNameKey = true)
    (h : secretDeletedLoop env s 1 NumServiceAccountUpdateRetries = (false, tr)) :
    secretDeleted env (.secret s) = (false, tr ++ delTrace env s) := by
  simp [secretDeleted, htok, h]

theorem secretDeleted_of_panic (env : Env) (s : Secret) (tr : List Act)
    (htok : annHas s ServiceAccountTokenSecretNameKey = true)
    (h : secretDeletedLoop env s 1 NumServiceAccountUpdateRetries = (true, tr)) :
    secretDeleted env (.secret s) = (true, tr) := by
  simp [secretDeleted, htok, h]

/-- The cascade delete always issues the Delete call for the token secret. -/
theorem delTrace_mem (env : Env) (s : Secret) :
    Act.deleteSecret s.ns (annGet s ServiceAccountTokenSecretNameKey) ∈
      delTrace env s := by
  cases hd : env.delResp with
  | ok => simp [delTrace, hd]
  | err e => cases e <;> simp [delTrace, hd]

/-- The cascade delete records nothing but the Delete call and possibly one
handled error. -/
theorem delTrace_all (env : Env) (s : Secret) :
    ∀ a ∈ delTrace env s,
      a = Act.deleteSecret s.ns (annGet s ServiceAccountTokenSecretNameKey) ∨
      a = Act.handleError := by
  cases hd : env.delResp with
  | ok => simp [delTrace, hd]
  | err e => cases e <;> simp [delTrace, hd]

/-- A not-found response to the token Delete is not reported as an error. -/
theorem delTrace_notFound (env : Env) (s : Secret)
    (hd : env.delResp = .err .notFound) :
    delTrace env s =
      [Act.deleteSecret s.ns (annGet s ServiceAccountTokenSecretNameKey)] := by
  simp [delTrace, hd]

/-! ### Classifiers of recorded calls, for counting -/

/-- True for ServiceAccount Get calls. -/
def Act.isGet : Act → Bool
  | .getSA _ _ _ => true
  | _ => false

/-- True for ServiceAccount Update calls. -/
def Act.isUpdate : Act → Bool
  | .updateSA _ _ => true
  | _ => false

/-- True for sleeps between retry attempts. -/
def Act.isSleep : Act → Bool
  | .sleep _ _ => true
  | _ => false

/-- True for the `glog.Error` report. -/
def Act.isLog : Act → Bool
  | .logError => true
  | _ => false

/-! ### Concrete fixtures -/

/-- The deleted dockercfg secret of the spec scenario: named `d1`, back
references `sa1`/`u1`, derived token `tok1`. -/
def d1secret : Secret :=
  { name := "d1", ns := "ns1",
    anns := [(ServiceAccountTokenSecretNameKey, "tok1"),
      (ServiceAccountNameKey, "sa1"), (ServiceAccountUIDKey, "u1")] }

/-- The spec scenario's ServiceAccount `sa1` (UID `u1`), with
`secretRefs=[d1,d2]` and `pullSecretRefs=[d1]`. -/
def sa1fix : ServiceAccount :=
  { name := "sa1", ns := "ns1", uid := "u1",
    secrets := [{ name := "d1" }, { name := "d2" }],
    imagePullSecrets := [{ name := "d1" }] }

/-- A same-named ServiceAccount with a different UID (a recreated identity). -/
def sa2fix : ServiceAccount := { sa1fix with uid := "u2" }

/-- A dockercfg secret with a token annotation but no back references. -/
def noBackrefSecret : Secret :=
  { name := "d1", ns := "ns1",
    anns := [(ServiceAccountTokenSecretNameKey, "tok1")] }

/-- A secret without the token annotation (not managed by this controller). -/
def plainSecret : Secret := { name := "p1", ns := "ns1", anns := [] }

/-- Environment answering not-found everywhere. -/
def envNotFound : Env :=
  ⟨fun _ => .err .notFound, fun _ => .ok, .err .notFound, fun _ => 0⟩

/-- Environment finding `sa2fix` (mismatching UID). -/
def envMismatch : Env :=
  ⟨fun _ => .found sa2fix, fun _ => .ok, .ok, fun _ => 0⟩

/-- Environment finding `sa1fix`, every update conflicting. -/
def envAllConflict : Env :=
  ⟨fun _ => .found sa1fix, fun _ => .err .conflict, .ok, fun _ => 0⟩

/-- Environment finding `sa1fix`; the first update conflicts, later ones
succeed; the random source always yields 1/2. -/
def envOneConflict : Env :=
  ⟨fun _ => .found sa1fix,
   fun i => if i = 1 then .err .conflict else .ok, .ok, fun _ => (1 : ℚ) / 2⟩

/-- Environment finding `sa1fix`, updates succeeding. -/
def envOk : Env :=
  ⟨fun _ => .found sa1fix, fun _ => .ok, .ok, fun _ => 0⟩

/-! ### Claims -/

/-- Claim C10: a deletion event whose payload is not a Secret, or whose Secret
lacks the derived-token-name annotation, is handled as an immediate no-op: no
store call is recorded, no error reported, no panic. -/
theorem non_dockercfg_event_ignored (env : Env) :
    secretDeleted env .nonSecret = (false, []) ∧
    ∀ s : Secret, annHas s ServiceAccountTokenSecretNameKey = false →
      secretDeleted env (.secret s) = (false, []) := by
  refine ⟨rfl, ?_⟩
  intro s h
  simp [secretDeleted, h]

theorem non_dockercfg_event_ignored_witness :
    annHas plainSecret ServiceAccountTokenSecretNameKey = false ∧
    secretDeleted envNotFound (.secret plainSecret) = (false, []) :=
  ⟨by decide,
    (non_dockercfg_event_ignored envNotFound).2 plainSecret (by decide)⟩

/-- Claim C2 (code bug): for a managed dockercfg secret whose back-reference
annotations are absent, the handler does not skip to the token delete;
`getServiceAccount` returns `(nil, nil)` and the caller dereferences the nil
ServiceAccount, so the handler panics having recorded no call at all — in
particular the derived token secret is never deleted. -/
theorem missing_backref_panics (env : Env) :
    secretDeleted env (.secret noBackrefSecret) = (true, []) := rfl

/-- Claim C5 (code bug, same nil dereference): re-delivering a deletion event
whose secret lacks back-reference annotations can never "complete without
error": over every fault-free store state, handling such an event panics
(result `none`), the first time and every later time. -/
theorem redelivered_event_panics (w : World) :
    processEvent noBackrefSecret w = none := rfl

theorem loop_fail_stop (env : Env) (s : Secret) (i fuel : Nat)
    (e : RemoveErr) (tr : List Act)
    (h : removeDockercfgSecretReference i ⟨env.getResp i, env.updResp i⟩ s =
      (.failed e, tr))
    (hc : ¬(e.isConflict = true ∧ i < NumServiceAccountUpdateRetries)) :
    secretDeletedLoop env s i (fuel + 1) = (false, tr ++ [.logError]) := by
  simp [secretDeletedLoop, h, hc]

/-- Claim C1: for a deletion event for a managed dockercfg secret with
back-reference annotations, if the fetched ServiceAccount's UID differs from
the `backrefUID` annotation, no Update to any ServiceAccount is ever issued,
the handler does not panic, and the derived token secret is still deleted. -/
theorem uid_mismatch_no_update (env : Env) (s : Secret) (sa : ServiceAccount)
    (htok : annHas s ServiceAccountTokenSecretNameKey = true)
    (hname : (annGet s ServiceAccountNameKey).length ≠ 0)
    (huid : (annGet s ServiceAccountUIDKey).length ≠ 0)
    (hget : env.getResp 1 = .found sa)
    (hmm : annGet s ServiceAccountUIDKey ≠ sa.uid) :
    (secretDeleted env (.secret s)).1 = false ∧
    (∀ j sa', Act.updateSA j sa' ∉ (secretDeleted env (.secret s)).2) ∧
    Act.deleteSecret s.ns (annGet s ServiceAccountTokenSecretNameKey) ∈
      (secretDeleted env (.secret s)).2 := by
  have hrem := remove_mismatch 1 ⟨env.getResp 1, env.updResp 1⟩ s sa hname huid
    hget hmm
  have hloop := loop_fail_noconflict env s 1 9 _ _ hrem rfl
  have heq := secretDeleted_of_loop env s _ htok hloop
  rw [heq]
  refine ⟨rfl, ?_, ?_⟩
  · intro j sa' hmem
    simp only [List.mem_append, List.mem_singleton] at hmem
    rcases hmem with (h | h) | h
    · exact Act.noConfusion h
    · exact Act.noConfusion h
    · rcases delTrace_all env s _ h with h' | h' <;> exact Act.noConfusion h'
  · exact List.mem_append.mpr (Or.inr (delTrace_mem env s))

theorem uid_mismatch_no_update_witness :
    annGet d1secret ServiceAccountUIDKey ≠ sa2fix.uid ∧
    ((secretDeleted envMismatch (.secret d1secret)).1 = false ∧
     (∀ j sa',
       Act.updateSA j sa' ∉ (secretDeleted envMismatch (.secret d1secret)).2) ∧
     Act.deleteSecret d1secret.ns
         (annGet d1secret ServiceAccountTokenSecretNameKey) ∈
       (secretDeleted envMismatch (.secret d1secret)).2) :=
  ⟨by decide,
    uid_mismatch_no_update envMismatch d1secret sa2fix (by decide) (by decide)
      (by decide) rfl (by decide)⟩

/-- Claim C7 counterexample: at a concrete mismatch input (ServiceAccount
recreated with UID `u2`, annotation `u1`) the handler DOES report an error:
the mismatch error built by `getServiceAccount` is logged via `glog.Error` —
contradicting the claim that no error is produced or reported. -/
theorem uid_mismatch_logs_error_counterexample :
    Act.logError ∈ (secretDeleted envMismatch (.secret d1secret)).2 := by
  decide

/-- Claim C7 amended: on a UID mismatch the repair is skipped without retry
and processing proceeds directly to deleting the derived token secret, but an
error IS produced (the `fmt.Errorf` of `getServiceAccount`) and reported
(logged): the handler's trace is exactly the Get, one error log, and the
cascade delete; the error is not propagated past the handler. -/
theorem uid_mismatch_skips_repair (env : Env) (s : Secret) (sa : ServiceAccount)
    (htok : annHas s ServiceAccountTokenSecretNameKey = true)
    (hname : (annGet s ServiceAccountNameKey).length ≠ 0)
    (huid : (annGet s ServiceAccountUIDKey).length ≠ 0)
    (hget : env.getResp 1 = .found sa)
    (hmm : annGet s ServiceAccountUIDKey ≠ sa.uid) :
    secretDeleted env (.secret s) =
      (false, [Act.getSA 1 s.ns (annGet s ServiceAccountNameKey), Act.logError]
        ++ delTrace env s) := by
  have hrem := remove_mismatch 1 ⟨env.getResp 1, env.updResp 1⟩ s sa hname huid
    hget hmm
  have hloop := loop_fail_noconflict env s 1 9 _ _ hrem rfl
  exact secretDeleted_of_loop env s _ htok hloop

theorem uid_mismatch_skips_repair_witness :
    annGet d1secret ServiceAccountUIDKey ≠ sa2fix.uid ∧
    secretDeleted envMismatch (.secret d1secret) =
      (false, [Act.getSA 1 d1secret.ns (annGet d1secret ServiceAccountNameKey),
        Act.logError] ++ delTrace envMismatch d1secret) :=
  ⟨by decide,
    uid_mismatch_skips_repair envMismatch d1secret sa2fix (by decide) (by decide)
      (by decide) rfl (by decide)⟩

/-- Claim C6: a not-found ServiceAccount Get leads to no update attempt and no
reported error, and a not-found response to the token-secret Delete is treated
as success with no error surfaced: the whole trace is exactly the one Get and
the one Delete, with no log, no handled error and no panic. -/
theorem notfound_not_an_error (env : Env) (s : Secret)
    (htok : annHas s ServiceAccountTokenSecretNameKey = true)
    (hname : (annGet s ServiceAccountNameKey).length ≠ 0)
    (huid : (annGet s ServiceAccountUIDKey).length ≠ 0)
    (hget : env.getResp 1 = .err .notFound)
    (hdel : env.delResp = .err .notFound) :
    secretDeleted env (.secret s) =
      (false, [Act.getSA 1 s.ns (annGet s ServiceAccountNameKey),
        Act.deleteSecret s.ns (annGet s ServiceAccountTokenSecretNameKey)]) := by
  have hrem := remove_getErr 1 ⟨env.getResp 1, env.updResp 1⟩ s .notFound hname
    huid hget
  rw [if_pos rfl] at hrem
  have hloop := loop_success env s 1 9 _ hrem
  rw [secretDeleted_of_loop env s _ htok hloop, delTrace_notFound env s hdel]
  rfl

theorem notfound_not_an_error_witness :
    envNotFound.getResp 1 = .err .notFound ∧
    secretDeleted envNotFound (.secret d1secret) =
      (false, [Act.getSA 1 d1secret.ns (annGet d1secret ServiceAccountNameKey),
        Act.deleteSecret d1secret.ns
          (annGet d1secret ServiceAccountTokenSecretNameKey)]) :=
  ⟨rfl, notfound_not_an_error envNotFound d1secret (by decide) (by decide)
    (by decide) rfl rfl⟩

/-- The attempt environment of the spec scenario: the Get finds `sa1fix` and
the Update succeeds. -/
def aenvOk : AttemptEnv := ⟨.found sa1fix, .ok⟩

/-- Claim C3: when the ServiceAccount is successfully fetched with matching
UID, the repair's update payload carries both reference lists with exactly the
entries named like the deleted secret removed and all other entries kept in
their relative order (the lists are the order-preserving filters), and an
Update is issued if and only if at least one entry was removed. -/
theorem repair_removes_matching_refs (i : Nat) (aenv : AttemptEnv) (s : Secret)
    (sa : ServiceAccount)
    (hname : (annGet s ServiceAccountNameKey).length ≠ 0)
    (huid : (annGet s ServiceAccountUIDKey).length ≠ 0)
    (hget : aenv.getResp = .found sa)
    (hmt : annGet s ServiceAccountUIDKey = sa.uid) :
    (stripSA sa s.name).secrets =
      sa.secrets.filter (fun r => r.name != s.name) ∧
    (stripSA sa s.name).imagePullSecrets =
      sa.imagePullSecrets.filter (fun r => r.name != s.name) ∧
    (∀ j sa', Act.updateSA j sa' ∈ (removeDockercfgSecretReference i aenv s).2 →
      sa' = stripSA sa s.name) ∧
    ((∃ j sa',
        Act.updateSA j sa' ∈ (removeDockercfgSecretReference i aenv s).2) ↔
      ((∃ r ∈ sa.secrets, r.name = s.name) ∨
        ∃ r ∈ sa.imagePullSecrets, r.name = s.name)) := by
  refine ⟨stripSA_secrets sa s.name, stripSA_pull sa s.name, ?_, ?_⟩
  all_goals
    by_cases hch : (∃ r ∈ sa.secrets, r.name = s.name) ∨
      ∃ r ∈ sa.imagePullSecrets, r.name = s.name
  · intro j sa' hmem
    rw [remove_match_changed i aenv s sa hname huid hget hmt hch] at hmem
    simp at hmem
    exact hmem.2
  · intro j sa' hmem
    rw [remove_match_unchanged i aenv s sa hname huid hget hmt hch] at hmem
    simp at hmem
  · have hrem := remove_match_changed i aenv s sa hname huid hget hmt hch
    refine ⟨fun _ => hch, fun _ => ⟨i, stripSA sa s.name, ?_⟩⟩
    rw [hrem]
    simp
  · have hrem := remove_match_unchanged i aenv s sa hname huid hget hmt hch
    refine ⟨?_, fun h => absurd h hch⟩
    rintro ⟨j, sa', hmem⟩
    rw [hrem] at hmem
    simp at hmem

theorem repair_removes_matching_refs_witness :
    (stripSA sa1fix d1secret.name).secrets = [{ name := "d2" }] ∧
    (stripSA sa1fix d1secret.name).imagePullSecrets = [] ∧
    ∃ j sa', Act.updateSA j sa' ∈
      (removeDockercfgSecretReference 1 aenvOk d1secret).2 := by
  have h := repair_removes_matching_refs 1 aenvOk d1secret sa1fix (by decide)
    (by decide) rfl (by decide)
  refine ⟨?_, ?_, h.2.2.2.mpr (Or.inl ⟨{ name := "d1" }, by decide, by decide⟩)⟩
  · rw [h.1]; decide
  · rw [h.2.1]; decide

/-- The cascade delete records no Get, Update, sleep or log. -/
theorem delTrace_counts (env : Env) (s : Secret) :
    (delTrace env s).countP Act.isGet = 0 ∧
    (delTrace env s).countP Act.isUpdate = 0 ∧
    (delTrace env s).countP Act.isSleep = 0 ∧
    (delTrace env s).countP Act.isLog = 0 := by
  cases hd : env.delResp with
  | ok => simp [delTrace, hd, Act.isGet, Act.isUpdate, Act.isSleep, Act.isLog]
  | err e =>
    cases e <;>
      simp [delTrace, hd, Act.isGet, Act.isUpdate, Act.isSleep, Act.isLog]

/-- Under an environment where every attempt's Get finds a UID-matching,
still-referencing ServiceAccount and every Update conflicts, the retry loop
with fuel `f` starting at attempt `NumServiceAccountUpdateRetries + 1 - f`
does not panic, performs `f` Gets and `f` Updates, sleeps `f - 1` times and
logs exactly one error. -/
theorem loop_all_conflict (env : Env) (s : Secret)
    (hname : (annGet s ServiceAccountNameKey).length ≠ 0)
    (huid : (annGet s ServiceAccountUIDKey).length ≠ 0)
    (hconf : ∀ i, ∃ sa, env.getResp i = .found sa ∧
      annGet s ServiceAccountUIDKey = sa.uid ∧
      ((∃ r ∈ sa.secrets, r.name = s.name) ∨
        ∃ r ∈ sa.imagePullSecrets, r.name = s.name) ∧
      env.updResp i = .err .conflict) :
    ∀ f i, 1 ≤ f → i + f = NumServiceAccountUpdateRetries + 1 →
      (secretDeletedLoop env s i f).1 = false ∧
      (secretDeletedLoop env s i f).2.countP Act.isGet = f ∧
      (secretDeletedLoop env s i f).2.countP Act.isUpdate = f ∧
      (secretDeletedLoop env s i f).2.countP Act.isSleep = f - 1 ∧
      (secretDeletedLoop env s i f).2.countP Act.isLog = 1 := by
  intro f
  induction f with
  | zero => intro i h1 _; omega
  | succ f ih =>
    intro i _ hi
    obtain ⟨sa, hget, hmt, hch, hupd⟩ := hconf i
    have hrem : removeDockercfgSecretReference i
        ⟨env.getResp i, env.updResp i⟩ s =
        (.failed (.fromUpdate .conflict),
         [.getSA i s.ns (annGet s ServiceAccountNameKey),
          .updateSA i (stripSA sa s.name)]) := by
      rw [remove_match_changed i ⟨env.getResp i, env.updResp i⟩ s sa hname huid
        hget hmt hch]
      simp [hupd]
    rcases Nat.eq_zero_or_pos f with hf0 | hfpos
    · subst hf0
      have hi10 : ¬ i < NumServiceAccountUpdateRetries := by
        simp only [NumServiceAccountUpdateRetries] at hi ⊢
        omega
      rw [loop_fail_last env s i 0 _ _ hrem hi10]
      simp [List.countP_append, List.countP_cons, Act.isGet, Act.isUpdate,
        Act.isSleep, Act.isLog]
    · have hi10 : i < NumServiceAccountUpdateRetries := by
        simp only [NumServiceAccountUpdateRetries] at hi ⊢
        omega
      rw [loop_fail_retry env s i f _ _ hrem rfl hi10]
      obtain ⟨ih1, ih2, ih3, ih4, ih5⟩ := ih (i + 1) hfpos (by omega)
      refine ⟨ih1, ?_, ?_, ?_, ?_⟩
      all_goals simp [List.countP_append, List.countP_cons, Act.isGet,
        Act.isUpdate, Act.isSleep, Act.isLog, ih2, ih3, ih4, ih5]
      all_goals omega

/-- Claim C4: if every Update attempt for a given deletion event conflicts,
the handler makes exactly 10 update attempts, each preceded by its own fetch
(10 Gets), sleeping between consecutive attempts (9 sleeps), logs the failure
exactly once without propagating it (the handler returns normally), and still
issues the derived-token-secret delete. -/
theorem all_conflicts_bounded_retry (env : Env) (s : Secret)
    (htok : annHas s ServiceAccountTokenSecretNameKey = true)
    (hname : (annGet s ServiceAccountNameKey).length ≠ 0)
    (huid : (annGet s ServiceAccountUIDKey).length ≠ 0)
    (hconf : ∀ i, ∃ sa, env.getResp i = .found sa ∧
      annGet s ServiceAccountUIDKey = sa.uid ∧
      ((∃ r ∈ sa.secrets, r.name = s.name) ∨
        ∃ r ∈ sa.imagePullSecrets, r.name = s.name) ∧
      env.updResp i = .err .conflict) :
    (secretDeleted env (.secret s)).1 = false ∧
    (secretDeleted env (.secret s)).2.countP Act.isGet = 10 ∧
    (secretDeleted env (.secret s)).2.countP Act.isUpdate = 10 ∧
    (secretDeleted env (.secret s)).2.countP Act.isSleep = 9 ∧
    (secretDeleted env (.secret s)).2.countP Act.isLog = 1 ∧
    Act.deleteSecret s.ns (annGet s ServiceAccountTokenSecretNameKey) ∈
      (secretDeleted env (.secret s)).2 := by
  obtain ⟨hp, hg, hu, hs, hl⟩ := loop_all_conflict env s hname huid hconf
    NumServiceAccountUpdateRetries 1 (by simp [NumServiceAccountUpdateRetries])
    (by simp [NumServiceAccountUpdateRetries])
  have hloopeq : secretDeletedLoop env s 1 NumServiceAccountUpdateRetries =
      (false, (secretDeletedLoop env s 1 NumServiceAccountUpdateRetries).2) := by
    rw [← hp]
  rw [secretDeleted_of_loop env s _ htok hloopeq]
  obtain ⟨hd1, hd2, hd3, hd4⟩ := delTrace_counts env s
  refine ⟨rfl, ?_, ?_, ?_, ?_, ?_⟩
  · rw [List.countP_append, hg, hd1]; rfl
  · rw [List.countP_append, hu, hd2]; rfl
  · rw [List.countP_append, hs, hd3]; rfl
  · rw [List.countP_append, hl, hd4]
  · exact List.mem_append.mpr (Or.inr (delTrace_mem env s))

theorem all_conflicts_bounded_retry_witness :
    (secretDeleted envAllConflict (.secret d1secret)).1 = false ∧
    (secretDeleted envAllConflict (.secret d1secret)).2.countP Act.isGet = 10 ∧
    (secretDeleted envAllConflict (.secret d1secret)).2.countP Act.isUpdate = 10 ∧
    (secretDeleted envAllConflict (.secret d1secret)).2.countP Act.isSleep = 9 ∧
    (secretDeleted envAllConflict (.secret d1secret)).2.countP Act.isLog = 1 ∧
    Act.deleteSecret d1secret.ns
        (annGet d1secret ServiceAccountTokenSecretNameKey) ∈
      (secretDeleted envAllConflict (.secret d1secret)).2 :=
  all_conflicts_bounded_retry envAllConflict d1secret (by decide) (by decide)
    (by decide)
    (fun _ => ⟨sa1fix, rfl, by decide,
      Or.inl ⟨{ name := "d1" }, by decide, by decide⟩, rfl⟩)

/-- Every Update recorded by one attempt carries that attempt's own index and
the strip of the ServiceAccount returned by that same attempt's Get, which is
also recorded. -/
theorem remove_update_sound (i : Nat) (aenv : AttemptEnv) (s : Secret)
    (j : Nat) (sa' : ServiceAccount)
    (hmem : Act.updateSA j sa' ∈ (removeDockercfgSecretReference i aenv s).2) :
    j = i ∧ ∃ sa, aenv.getResp = .found sa ∧ sa' = stripSA sa s.name ∧
      Act.getSA i s.ns (annGet s ServiceAccountNameKey) ∈
        (removeDockercfgSecretReference i aenv s).2 := by
  by_cases h0 : (annGet s ServiceAccountNameKey).length = 0 ∨
      (annGet s ServiceAccountUIDKey).length = 0
  · rw [remove_noRef i aenv s h0] at hmem
    simp at hmem
  · push_neg at h0
    obtain ⟨hname, huid⟩ := h0
    cases hget : aenv.getResp with
    | err e =>
      rw [remove_getErr i aenv s e hname huid hget] at hmem
      simp at hmem
    | found sa =>
      by_cases hmt : annGet s ServiceAccountUIDKey = sa.uid
      · by_cases hch : (∃ r ∈ sa.secrets, r.name = s.name) ∨
            ∃ r ∈ sa.imagePullSecrets, r.name = s.name
        · rw [remove_match_changed i aenv s sa hname huid hget hmt hch]
            at hmem ⊢
          simp at hmem
          exact ⟨hmem.1, sa, rfl, hmem.2, by simp⟩
        · rw [remove_match_unchanged i aenv s sa hname huid hget hmt hch]
            at hmem
          simp at hmem
      · rw [remove_mismatch i aenv s sa hname huid hget
          (by exact hmt)] at hmem
        simp at hmem

/-- Attempts record nothing but Get and Update calls. -/
theorem remove_act_shape (i : Nat) (aenv : AttemptEnv) (s : Secret) :
    ∀ a ∈ (removeDockercfgSecretReference i aenv s).2,
      a.isGet = true ∨ a.isUpdate = true := by
  by_cases h0 : (annGet s ServiceAccountNameKey).length = 0 ∨
      (annGet s ServiceAccountUIDKey).length = 0
  · rw [remove_noRef i aenv s h0]
    simp
  · push_neg at h0
    obtain ⟨hname, huid⟩ := h0
    cases hget : aenv.getResp with
    | err e =>
      rw [remove_getErr i aenv s e hname huid hget]
      simp [Act.isGet]
    | found sa =>
      by_cases hmt : annGet s ServiceAccountUIDKey = sa.uid
      · by_cases hch : (∃ r ∈ sa.secrets, r.name = s.name) ∨
            ∃ r ∈ sa.imagePullSecrets, r.name = s.name
        · rw [remove_match_changed i aenv s sa hname huid hget hmt hch]
          simp [Act.isGet, Act.isUpdate]
        · rw [remove_match_unchanged i aenv s sa hname huid hget hmt hch]
          simp [Act.isGet]
      · rw [remove_mismatch i aenv s sa hname huid hget (by exact hmt)]
        simp [Act.isGet]

/-- Every Update recorded by the retry loop in some attempt `j` is the strip
of the ServiceAccount freshly fetched by attempt `j`'s own Get, whose call is
also recorded. -/
theorem loop_update_sound (env : Env) (s : Secret) :
    ∀ fuel i j sa', Act.updateSA j sa' ∈ (secretDeletedLoop env s i fuel).2 →
      ∃ sa, env.getResp j = .found sa ∧ sa' = stripSA sa s.name ∧
        Act.getSA j s.ns (annGet s ServiceAccountNameKey) ∈
          (secretDeletedLoop env s i fuel).2 := by
  intro fuel
  induction fuel with
  | zero => intro i j sa' h; simp [secretDeletedLoop] at h
  | succ f ih =>
    intro i j sa' h
    rcases hrem : removeDockercfgSecretReference i
      ⟨env.getResp i, env.updResp i⟩ s with ⟨res, tr⟩
    have sound : Act.updateSA j sa' ∈ tr →
        ∃ sa, env.getResp j = .found sa ∧ sa' = stripSA sa s.name ∧
          Act.getSA j s.ns (annGet s ServiceAccountNameKey) ∈ tr := by
      intro hm
      obtain ⟨hj, sa, hget, hsa, hg⟩ := remove_update_sound i
        ⟨env.getResp i, env.updResp i⟩ s j sa' (by rw [hrem]; exact hm)
      subst hj
      rw [hrem] at hg
      exact ⟨sa, hget, hsa, hg⟩
    cases res with
    | panicked =>
      rw [loop_panic env s i f tr hrem] at h ⊢
      exact sound h
    | succeeded =>
      rw [loop_success env s i f tr hrem] at h ⊢
      exact sound h
    | failed e =>
      by_cases hc : e.isConflict = true ∧ i < NumServiceAccountUpdateRetries
      · rw [loop_fail_retry env s i f e tr hrem hc.1 hc.2] at h ⊢
        simp only [List.mem_append, List.mem_singleton] at h ⊢
        rcases h with (h | h) | h
        · obtain ⟨sa, hget, hsa, hg⟩ := sound h
          exact ⟨sa, hget, hsa, Or.inl (Or.inl hg)⟩
        · exact Act.noConfusion h
        · obtain ⟨sa, hget, hsa, hg⟩ := ih (i + 1) j sa' h
          exact ⟨sa, hget, hsa, Or.inr hg⟩
      · rw [loop_fail_stop env s i f e tr hrem hc] at h ⊢
        simp only [List.mem_append, List.mem_singleton] at h ⊢
        rcases h with h | h
        · obtain ⟨sa, hget, hsa, hg⟩ := sound h
          exact ⟨sa, hget, hsa, Or.inl hg⟩
        · exact Act.noConfusion h

/-- Claim C9: every Update issued while handling a deletion event carries, for
its attempt `j`, exactly the strip of the ServiceAccount returned by attempt
`j`'s own Get — the read-modify-write is re-validated from a fresh fetch on
every retry, never reusing a copy fetched in an earlier attempt. -/
theorem update_uses_fresh_fetch (env : Env) (s : Secret) (j : Nat)
    (sa' : ServiceAccount)
    (h : Act.updateSA j sa' ∈ (secretDeleted env (.secret s)).2) :
    ∃ sa, env.getResp j = .found sa ∧ sa' = stripSA sa s.name ∧
      Act.getSA j s.ns (annGet s ServiceAccountNameKey) ∈
        (secretDeleted env (.secret s)).2 := by
  cases htok : annHas s ServiceAccountTokenSecretNameKey with
  | false => simp [secretDeleted, htok] at h
  | true =>
    rcases hloop : secretDeletedLoop env s 1 NumServiceAccountUpdateRetries
      with ⟨p, tr⟩
    cases p with
    | true =>
      rw [secretDeleted_of_panic env s tr htok hloop] at h ⊢
      obtain ⟨sa, hget, hsa, hg⟩ := loop_update_sound env s
        NumServiceAccountUpdateRetries 1 j sa' (by rw [hloop]; exact h)
      rw [hloop] at hg
      exact ⟨sa, hget, hsa, hg⟩
    | false =>
      rw [secretDeleted_of_loop env s tr htok hloop] at h ⊢
      simp only [List.mem_append] at h ⊢
      rcases h with h | h
      · obtain ⟨sa, hget, hsa, hg⟩ := loop_update_sound env s
          NumServiceAccountUpdateRetries 1 j sa' (by rw [hloop]; exact h)
        rw [hloop] at hg
        exact ⟨sa, hget, hsa, Or.inl hg⟩
      · rcases delTrace_all env s _ h with h' | h' <;> exact Act.noConfusion h'

theorem update_uses_fresh_fetch_witness :
    ∃ sa, envOk.getResp 1 = .found sa ∧
      stripSA sa1fix d1secret.name = stripSA sa d1secret.name ∧
      Act.getSA 1 d1secret.ns (annGet d1secret ServiceAccountNameKey) ∈
        (secretDeleted envOk (.secret d1secret)).2 :=
  update_uses_fresh_fetch envOk d1secret 1 (stripSA sa1fix d1secret.name)
    (by decide)

/-- Every sleep recorded by the retry loop in attempt `j` has the duration
computed by `wait.Jitter(100*time.Millisecond, 0.0)` from attempt `j`'s draw
of the random source. -/
theorem loop_sleep_sound (env : Env) (s : Secret) :
    ∀ fuel i j d, Act.sleep j d ∈ (secretDeletedLoop env s i fuel).2 →
      d = waitJitter (100 * 1000000) 0 (env.rand j) := by
  intro fuel
  induction fuel with
  | zero => intro i j d h; simp [secretDeletedLoop] at h
  | succ f ih =>
    intro i j d h
    rcases hrem : removeDockercfgSecretReference i
      ⟨env.getResp i, env.updResp i⟩ s with ⟨res, tr⟩
    have hnotr : Act.sleep j d ∉ tr := by
      intro hm
      have := remove_act_shape i ⟨env.getResp i, env.updResp i⟩ s
        (Act.sleep j d) (by rw [hrem]; exact hm)
      rcases this with hb | hb <;> simp [Act.isGet, Act.isUpdate] at hb
    cases res with
    | panicked =>
      rw [loop_panic env s i f tr hrem] at h
      exact absurd h hnotr
    | succeeded =>
      rw [loop_success env s i f tr hrem] at h
      exact absurd h hnotr
    | failed e =>
      by_cases hc : e.isConflict = true ∧ i < NumServiceAccountUpdateRetries
      · rw [loop_fail_retry env s i f e tr hrem hc.1 hc.2] at h
        simp only [List.mem_append, List.mem_singleton] at h
        rcases h with (h | h) | h
        · exact absurd h hnotr
        · injection h with h1 h2
          subst h1
          exact h2
        · exact ih (i + 1) j d h
      · rw [loop_fail_stop env s i f e tr hrem hc] at h
        simp only [List.mem_append, List.mem_singleton] at h
        rcases h with h | h
        · exact absurd h hnotr
        · exact Act.noConfusion h

/-- Every sleep the handler performs is `wait.Jitter(100ms, 0.0)` of that
attempt's random draw. -/
theorem sleeps_are_jittered (env : Env) (s : Secret) (j : Nat) (d : ℚ)
    (h : Act.sleep j d ∈ (secretDeleted env (.secret s)).2) :
    d = waitJitter (100 * 1000000) 0 (env.rand j) := by
  cases htok : annHas s ServiceAccountTokenSecretNameKey with
  | false => simp [secretDeleted, htok] at h
  | true =>
    rcases hloop : secretDeletedLoop env s 1 NumServiceAccountUpdateRetries
      with ⟨p, tr⟩
    cases p with
    | true =>
      rw [secretDeleted_of_panic env s tr htok hloop] at h
      exact loop_sleep_sound env s NumServiceAccountUpdateRetries 1 j d
        (by rw [hloop]; exact h)
    | false =>
      rw [secretDeleted_of_loop env s tr htok hloop] at h
      simp only [List.mem_append] at h
      rcases h with h | h
      · exact loop_sleep_sound env s NumServiceAccountUpdateRetries 1 j d
          (by rw [hloop]; exact h)
      · rcases delTrace_all env s _ h with h' | h' <;> exact Act.noConfusion h'

/-- Claim C8 amended: the duration passed to the sleep between conflicting
attempts is `wait.Jitter(100*time.Millisecond, 0.0)`; `Jitter` replaces the
non-positive factor `0.0` by `1.0`, so for every value of the random source in
`[0, 1)` the slept duration lies in `[100ms, 200ms)` (nanoseconds) — it is
100ms plus a jitter uniform over `[0, 100ms)`, not a jitter over `[0, 100ms]`. -/
theorem sleep_duration_bounds (env : Env) (s : Secret) (j : Nat) (d : ℚ)
    (hr0 : 0 ≤ env.rand j) (hr1 : env.rand j < 1)
    (h : Act.sleep j d ∈ (secretDeleted env (.secret s)).2) :
    100000000 ≤ d ∧ d < 200000000 := by
  have hje : waitJitter (100 * 1000000) 0 (env.rand j) =
      100000000 + env.rand j * 100000000 := by
    norm_num [waitJitter]
  rw [sleeps_are_jittered env s j d h, hje]
  have h1 : 0 ≤ env.rand j * (100000000 : ℚ) := mul_nonneg hr0 (by norm_num)
  have h2 : env.rand j * (100000000 : ℚ) < 100000000 := by
    have := mul_lt_mul_of_pos_right hr1
      (show (0 : ℚ) < 100000000 by norm_num)
    simpa using this
  constructor <;> linarith

/-- In the concrete one-conflict run the handler sleeps exactly once, between
attempts 1 and 2, for the jitter of the draw 1/2. -/
theorem oneConflict_sleep_mem :
    Act.sleep 1 (waitJitter (100 * 1000000) 0 ((1 : ℚ) / 2)) ∈
      (secretDeleted envOneConflict (.secret d1secret)).2 := by
  have hrem1 : removeDockercfgSecretReference 1
      ⟨envOneConflict.getResp 1, envOneConflict.updResp 1⟩ d1secret =
      (.failed (.fromUpdate .conflict),
       [.getSA 1 d1secret.ns (annGet d1secret ServiceAccountNameKey),
        .updateSA 1 (stripSA sa1fix d1secret.name)]) := by
    rw [remove_match_changed 1
      ⟨envOneConflict.getResp 1, envOneConflict.updResp 1⟩ d1secret sa1fix
      (by decide) (by decide) rfl (by decide)
      (Or.inl ⟨{ name := "d1" }, by decide, by decide⟩)]
    rfl
  have hrem2 : removeDockercfgSecretReference 2
      ⟨envOneConflict.getResp 2, envOneConflict.updResp 2⟩ d1secret =
      (.succeeded,
       [.getSA 2 d1secret.ns (annGet d1secret ServiceAccountNameKey),
        .updateSA 2 (stripSA sa1fix d1secret.name)]) := by
    rw [remove_match_changed 2
      ⟨envOneConflict.getResp 2, envOneConflict.updResp 2⟩ d1secret sa1fix
      (by decide) (by decide) rfl (by decide)
      (Or.inl ⟨{ name := "d1" }, by decide, by decide⟩)]
    rfl
  have hloop2 := loop_success envOneConflict d1secret 2 8 _ hrem2
  have hloop : secretDeletedLoop envOneConflict d1secret 1
      NumServiceAccountUpdateRetries =
      (false,
       ([.getSA 1 d1secret.ns (annGet d1secret ServiceAccountNameKey),
         .updateSA 1 (stripSA sa1fix d1secret.name)] ++
        [.sleep 1 (waitJitter (100 * 1000000) 0 (envOneConflict.rand 1))] ++
        [.getSA 2 d1secret.ns (annGet d1secret ServiceAccountNameKey),
         .updateSA 2 (stripSA sa1fix d1secret.name)])) := by
    rw [show NumServiceAccountUpdateRetries = 9 + 1 from rfl]
    rw [loop_fail_retry envOneConflict d1secret 1 9 _ _ hrem1 rfl
      (by norm_num [NumServiceAccountUpdateRetries])]
    rw [hloop2]
  rw [secretDeleted_of_loop envOneConflict d1secret _ (by rfl) hloop]
  simp [envOneConflict]

/-- Witness: the concrete one-conflict run's draw 1/2 satisfies the bounds. -/
theorem sleep_duration_bounds_witness :
    (0 : ℚ) ≤ envOneConflict.rand 1 ∧ envOneConflict.rand 1 < 1 ∧
    (100000000 ≤ waitJitter (100 * 1000000) 0 ((1 : ℚ) / 2) ∧
      waitJitter (100 * 1000000) 0 ((1 : ℚ) / 2) < 200000000) :=
  ⟨by norm_num [envOneConflict], by norm_num [envOneConflict],
    sleep_duration_bounds envOneConflict d1secret 1 _
      (by norm_num [envOneConflict]) (by norm_num [envOneConflict])
      oneConflict_sleep_mem⟩

/-- Claim C8 counterexample: in a concrete run whose first update conflicts
and whose random draw is 1/2, the duration passed to the sleep is
`Jitter(100ms, 0.0) = 150ms` — not in the claimed interval [0ms, 100ms]. -/
theorem sleep_not_in_claimed_interval :
    Act.sleep 1 (waitJitter (100 * 1000000) 0 ((1 : ℚ) / 2)) ∈
      (secretDeleted envOneConflict (.secret d1secret)).2 ∧
    ¬ (waitJitter (100 * 1000000) 0 ((1 : ℚ) / 2) ≤ 100000000) :=
  ⟨oneConflict_sleep_mem, by norm_num [waitJitter]⟩

/-! ### Fault-free store runs and idempotence -/

theorem processEvent_eq (s : Secret) (w : World) (tr : List Act)
    (hsd : secretDeleted (envOfWorld w s) (.secret s) = (false, tr)) :
    processEvent s w = some (tr.foldl applyAct w,
      tr.countP (fun a => decide (a = Act.logError ∨ a = Act.handleError))) := by
  simp [processEvent, hsd]

/-- Over the fault-free store, the cascade delete is one Delete call with no
handled error (its response is success or not-found). -/
theorem delTrace_world (w : World) (s : Secret) :
    delTrace (envOfWorld w s) s =
      [Act.deleteSecret s.ns (annGet s ServiceAccountTokenSecretNameKey)] := by
  by_cases h : (s.ns, annGet s ServiceAccountTokenSecretNameKey) ∈ w.tokens <;>
    simp [delTrace, envOfWorld, h]

theorem tokens_filter_idem (l : List (String × String)) (t : String × String) :
    (l.filter (fun x => x ≠ t)).filter (fun x => x ≠ t) =
      l.filter (fun x => x ≠ t) := by
  rw [List.filter_filter]
  simp

/-- A found answer comes from `find?` on the store's ServiceAccounts. -/
theorem worldGetSA_found (w : World) (ns name : String) (sa : ServiceAccount)
    (h : worldGetSA w ns name = .found sa) :
    w.sas.find? (fun x => x.ns == ns && x.name == name) = some sa := by
  unfold worldGetSA at h
  rcases hf : w.sas.find? (fun x => x.ns == ns && x.name == name) with _ | sa'
  · rw [hf] at h
    exact GetSAResult.noConfusion h
  · rw [hf] at h
    injection h with h'
    exact h' ▸ hf

/-- Replacing the found element by one satisfying the replacement condition
(and the search predicate) makes `find?` return the replacement. -/
theorem find?_map_replace (p : ServiceAccount → Bool) (sa sa' : ServiceAccount)
    (l : List ServiceAccount)
    (hfind : l.find? p = some sa)
    (hp' : p sa')
    (hsa : sa.ns = sa'.ns ∧ sa.name = sa'.name)
    (himp : ∀ x, x.ns = sa'.ns ∧ x.name = sa'.name → p x) :
    (l.map (fun x =>
      if x.ns = sa'.ns ∧ x.name = sa'.name then sa' else x)).find? p =
      some sa' := by
  induction l with
  | nil => simp at hfind
  | cons a rest ih =>
    simp only [List.map_cons]
    by_cases hpa : p a = true
    · rw [List.find?_cons_of_pos _ hpa] at hfind
      injection hfind with ha
      subst ha
      rw [if_pos hsa]
      exact List.find?_cons_of_pos _ hp'
    · rw [List.find?_cons_of_neg _ hpa] at hfind
      rw [if_neg (fun hc => hpa (himp a hc))]
      rw [List.find?_cons_of_neg _ hpa]
      exact ih hfind

/-- After the repair's Update, the store's Get returns the stripped
ServiceAccount. -/
theorem worldGetSA_after_update (w : World) (s : Secret) (sa : ServiceAccount)
    (hget : worldGetSA w s.ns (annGet s ServiceAccountNameKey) = .found sa) :
    worldGetSA
      { w with sas := w.sas.map (fun x =>
          if x.ns = (stripSA sa s.name).ns ∧ x.name = (stripSA sa s.name).name
          then stripSA sa s.name else x) }
      s.ns (annGet s ServiceAccountNameKey) = .found (stripSA sa s.name) := by
  have hfind := worldGetSA_found w _ _ sa hget
  have hp := List.find?_some hfind
  simp only [Bool.and_eq_true, beq_iff_eq] at hp
  unfold worldGetSA
  rw [find?_map_replace _ sa (stripSA sa s.name) w.sas hfind
    (by simp [stripSA, hp.1, hp.2])
    ⟨rfl, rfl⟩
    (fun x hx => by
      simp only [stripSA] at hx
      simp [hx.1, hx.2, hp.1, hp.2])]

/-- The stripped ServiceAccount references the deleted secret nowhere. -/
theorem strip_no_refs (sa : ServiceAccount) (t : String) :
    ¬((∃ r ∈ (stripSA sa t).secrets, r.name = t) ∨
      ∃ r ∈ (stripSA sa t).imagePullSecrets, r.name = t) := by
  rw [stripSA_secrets, stripSA_pull]
  rintro (⟨r, hr, hn⟩ | ⟨r, hr, hn⟩) <;>
    simp [List.mem_filter, hn] at hr

/-- Fault-free run: the ServiceAccount named by the back reference is absent.
The token is deleted, nothing else changes, no error is reported. -/
theorem processEvent_notFound (s : Secret) (w : World)
    (htok : annHas s ServiceAccountTokenSecretNameKey = true)
    (hname : (annGet s ServiceAccountNameKey).length ≠ 0)
    (huid : (annGet s ServiceAccountUIDKey).length ≠ 0)
    (hget : worldGetSA w s.ns (annGet s ServiceAccountNameKey) =
      .err .notFound) :
    processEvent s w =
      some ({ w with tokens := w.tokens.filter (fun t =>
        t ≠ (s.ns, annGet s ServiceAccountTokenSecretNameKey)) }, 0) := by
  have hrem := remove_getErr 1
    ⟨(envOfWorld w s).getResp 1, (envOfWorld w s).updResp 1⟩ s .notFound
    hname huid hget
  rw [if_pos rfl] at hrem
  have hloop := loop_success (envOfWorld w s) s 1 9 _ hrem
  have hsd := secretDeleted_of_loop (envOfWorld w s) s _ htok hloop
  rw [delTrace_world w s] at hsd
  rw [processEvent_eq s w _ hsd]
  simp [applyAct]

/-- Fault-free run: the fetched ServiceAccount's UID mismatches.  The token is
deleted, no ServiceAccount changes, one error is reported (logged). -/
theorem processEvent_mismatch (s : Secret) (w : World) (sa : ServiceAccount)
    (htok : annHas s ServiceAccountTokenSecretNameKey = true)
    (hname : (annGet s ServiceAccountNameKey).length ≠ 0)
    (huid : (annGet s ServiceAccountUIDKey).length ≠ 0)
    (hget : worldGetSA w s.ns (annGet s ServiceAccountNameKey) = .found sa)
    (hne : annGet s ServiceAccountUIDKey ≠ sa.uid) :
    processEvent s w =
      some ({ w with tokens := w.tokens.filter (fun t =>
        t ≠ (s.ns, annGet s ServiceAccountTokenSecretNameKey)) }, 1) := by
  have hrem := remove_mismatch 1
    ⟨(envOfWorld w s).getResp 1, (envOfWorld w s).updResp 1⟩ s sa hname huid
    hget hne
  have hloop := loop_fail_noconflict (envOfWorld w s) s 1 9 _ _ hrem rfl
  have hsd := secretDeleted_of_loop (envOfWorld w s) s _ htok hloop
  rw [delTrace_world w s] at hsd
  rw [processEvent_eq s w _ hsd]
  simp [applyAct]

/-- Fault-free run: matching ServiceAccount with no entry to strip.  No update
is issued; the token is deleted; no error. -/
theorem processEvent_unchanged (s : Secret) (w : World) (sa : ServiceAccount)
    (htok : annHas s ServiceAccountTokenSecretNameKey = true)
    (hname : (annGet s ServiceAccountNameKey).length ≠ 0)
    (huid : (annGet s ServiceAccountUIDKey).length ≠ 0)
    (hget : worldGetSA w s.ns (annGet s ServiceAccountNameKey) = .found sa)
    (heq : annGet s ServiceAccountUIDKey = sa.uid)
    (hch : ¬((∃ r ∈ sa.secrets, r.name = s.name) ∨
      ∃ r ∈ sa.imagePullSecrets, r.name = s.name)) :
    processEvent s w =
      some ({ w with tokens := w.tokens.filter (fun t =>
        t ≠ (s.ns, annGet s ServiceAccountTokenSecretNameKey)) }, 0) := by
  have hrem := remove_match_unchanged 1
    ⟨(envOfWorld w s).getResp 1, (envOfWorld w s).updResp 1⟩ s sa hname huid
    hget heq hch
  have hloop := loop_success (envOfWorld w s) s 1 9 _ hrem
  have hsd := secretDeleted_of_loop (envOfWorld w s) s _ htok hloop
  rw [delTrace_world w s] at hsd
  rw [processEvent_eq s w _ hsd]
  simp [applyAct]

/-- Fault-free run: matching ServiceAccount referencing the deleted secret.
The stripped ServiceAccount is written back, the token is deleted, no error. -/
theorem processEvent_changed (s : Secret) (w : World) (sa : ServiceAccount)
    (htok : annHas s ServiceAccountTokenSecretNameKey = true)
    (hname : (annGet s ServiceAccountNameKey).length ≠ 0)
    (huid : (annGet s ServiceAccountUIDKey).length ≠ 0)
    (hget : worldGetSA w s.ns (annGet s ServiceAccountNameKey) = .found sa)
    (heq : annGet s ServiceAccountUIDKey = sa.uid)
    (hch : (∃ r ∈ sa.secrets, r.name = s.name) ∨
      ∃ r ∈ sa.imagePullSecrets, r.name = s.name) :
    processEvent s w =
      some ({ sas := w.sas.map (fun x =>
                if x.ns = (stripSA sa s.name).ns ∧
                    x.name = (stripSA sa s.name).name
                then stripSA sa s.name else x),
              tokens := w.tokens.filter (fun t =>
                t ≠ (s.ns, annGet s ServiceAccountTokenSecretNameKey)) },
        0) := by
  have hrem : removeDockercfgSecretReference 1
      ⟨(envOfWorld w s).getResp 1, (envOfWorld w s).updResp 1⟩ s =
      (.succeeded, [.getSA 1 s.ns (annGet s ServiceAccountNameKey),
        .updateSA 1 (stripSA sa s.name)]) := by
    rw [remove_match_changed 1
      ⟨(envOfWorld w s).getResp 1, (envOfWorld w s).updResp 1⟩ s sa hname huid
      hget heq hch]
    rfl
  have hloop := loop_success (envOfWorld w s) s 1 9 _ hrem
  have hsd := secretDeleted_of_loop (envOfWorld w s) s _ htok hloop
  rw [delTrace_world w s] at hsd
  rw [processEvent_eq s w _ hsd]
  simp [applyAct]

/-- Idempotence over the fault-free store, wherever the handler completes at
all: re-processing the same deletion event reaches the same store state and
reports the same errors.  (Completion fails exactly for managed events
without back references, which hit the nil dereference of
`removeDockercfgSecretReference`.) -/
theorem processEvent_idempotent (s : Secret) (w w₁ : World) (n₁ : Nat)
    (h : processEvent s w = some (w₁, n₁)) :
    processEvent s w₁ = some (w₁, n₁) := by
  by_cases htok : annHas s ServiceAccountTokenSecretNameKey = true
  · by_cases hnm : (annGet s ServiceAccountNameKey).length = 0 ∨
        (annGet s ServiceAccountUIDKey).length = 0
    · exfalso
      have hrem := remove_noRef 1
        ⟨(envOfWorld w s).getResp 1, (envOfWorld w s).updResp 1⟩ s hnm
      have hloop := loop_panic (envOfWorld w s) s 1 9 [] hrem
      have hsd := secretDeleted_of_panic (envOfWorld w s) s [] htok hloop
      simp [processEvent, hsd] at h
    · push_neg at hnm
      obtain ⟨hname, huid⟩ := hnm
      cases hget : worldGetSA w s.ns (annGet s ServiceAccountNameKey) with
      | err e =>
        have he : e = StoreErr.notFound := by
          unfold worldGetSA at hget
          rcases hf : w.sas.find? (fun x =>
              x.ns == s.ns && x.name == annGet s ServiceAccountNameKey)
            with _ | sa
          · rw [hf] at hget
            injection hget with h'
            exact h'.symm
          · rw [hf] at hget
            exact GetSAResult.noConfusion hget
        subst he
        rw [processEvent_notFound s w htok hname huid hget] at h
        rw [Option.some.injEq, Prod.mk.injEq] at h
        obtain ⟨hw, hn⟩ := h
        have hget1 : worldGetSA w₁ s.ns (annGet s ServiceAccountNameKey) =
            .err .notFound := by
          rw [← hw]
          exact hget
        have htk : w₁.tokens.filter (fun t =>
            t ≠ (s.ns, annGet s ServiceAccountTokenSecretNameKey)) =
            w₁.tokens := by
          rw [← hw]
          exact tokens_filter_idem w.tokens _
        rw [processEvent_notFound s w₁ htok hname huid hget1, htk, ← hn]
      | found sa =>
        by_cases heq : annGet s ServiceAccountUIDKey = sa.uid
        · by_cases hch : (∃ r ∈ sa.secrets, r.name = s.name) ∨
              ∃ r ∈ sa.imagePullSecrets, r.name = s.name
          · rw [processEvent_changed s w sa htok hname huid hget heq hch] at h
            rw [Option.some.injEq, Prod.mk.injEq] at h
            obtain ⟨hw, hn⟩ := h
            have hget1 : worldGetSA w₁ s.ns (annGet s ServiceAccountNameKey) =
                .found (stripSA sa s.name) := by
              rw [← hw]
              exact worldGetSA_after_update w s sa hget
            have htk : w₁.tokens.filter (fun t =>
                t ≠ (s.ns, annGet s ServiceAccountTokenSecretNameKey)) =
                w₁.tokens := by
              rw [← hw]
              exact tokens_filter_idem w.tokens _
            rw [processEvent_unchanged s w₁ (stripSA sa s.name) htok hname huid
              hget1 heq (strip_no_refs sa s.name), htk, ← hn]
          · rw [processEvent_unchanged s w sa htok hname huid hget heq hch]
              at h
            rw [Option.some.injEq, Prod.mk.injEq] at h
            obtain ⟨hw, hn⟩ := h
            have hget1 : worldGetSA w₁ s.ns (annGet s ServiceAccountNameKey) =
                .found sa := by
              rw [← hw]
              exact hget
            have htk : w₁.tokens.filter (fun t =>
                t ≠ (s.ns, annGet s ServiceAccountTokenSecretNameKey)) =
                w₁.tokens := by
              rw [← hw]
              exact tokens_filter_idem w.tokens _
            rw [processEvent_unchanged s w₁ sa htok hname huid hget1 heq hch,
              htk, ← hn]
        · rw [processEvent_mismatch s w sa htok hname huid hget heq] at h
          rw [Option.some.injEq, Prod.mk.injEq] at h
          obtain ⟨hw, hn⟩ := h
          have hget1 : worldGetSA w₁ s.ns (annGet s ServiceAccountNameKey) =
              .found sa := by
            rw [← hw]
            exact hget
          have htk : w₁.tokens.filter (fun t =>
              t ≠ (s.ns, annGet s ServiceAccountTokenSecretNameKey)) =
              w₁.tokens := by
            rw [← hw]
            exact tokens_filter_idem w.tokens _
          rw [processEvent_mismatch s w₁ sa htok hname huid hget1 heq, htk,
            ← hn]
  · have htok' : annHas s ServiceAccountTokenSecretNameKey = false := by
      simpa using htok
    have hsd : ∀ w' : World,
        secretDeleted (envOfWorld w' s) (.secret s) = (false, []) := by
      intro w'
      simp [secretDeleted, htok']
    rw [processEvent_eq s w [] (hsd w)] at h
    simp only [List.foldl_nil, List.countP_nil] at h
    rw [Option.some.injEq, Prod.mk.injEq] at h
    obtain ⟨hw, hn⟩ := h
    subst hw
    subst hn
    rw [processEvent_eq s w [] (hsd w)]
    simp
